import Mathlib

/-!
Verification of the result-aggregation pipeline of `app.py` (YTBNICHES).

Each definition below is a shallow embedding of a piece of `app.py`,
documented with the source lines it mirrors.  Identifiers, keywords and
region codes are Python strings; dictionaries are embedded as functions
into `Option`; Python exceptions are embedded as `Except`/`Option`;
Python ints are `Nat`/`Int`; float division is embedded as exact
division on `Rat`.
-/

namespace YTB

/-- `app.py:15` — `SAFETY_MAX_IDS = 500`. -/
def SAFETY_MAX_IDS : Nat := 500

/-!
### Deduplication (`fetch_keywords`, `app.py:308-314`)

```python
seen = set()
unique_ids = []
for vid in ordered_ids:
    if vid not in seen:
        seen.add(vid)
        unique_ids.append(vid)
unique_ids = unique_ids[:SAFETY_MAX_IDS]
```
The `seen` set is embedded as a list used only through membership.
-/

/-- The loop body of `app.py:310-313`: walk the remaining ids with the
current `seen` set, emitting each id not seen before. -/
def dedupGo {α : Type} [DecidableEq α] : List α → List α → List α
  | _, [] => []
  | seen, v :: rest =>
    if v ∈ seen then dedupGo seen rest
    else v :: dedupGo (v :: seen) rest

/-- `app.py:308-313`: first-seen-order deduplication, starting from an
empty `seen` set. -/
def dedupFirstSeen {α : Type} [DecidableEq α] (l : List α) : List α :=
  dedupGo [] l

/-- `app.py:308-314`: the whole deduplication step of `fetch_keywords`,
including the truncation `unique_ids[:SAFETY_MAX_IDS]`. -/
def dedupCapped {α : Type} [DecidableEq α] (l : List α) : List α :=
  (dedupFirstSeen l).take SAFETY_MAX_IDS

/-- The `seen` set after the loop of `app.py:310-313` has consumed `l`. -/
def accSeen {α : Type} [DecidableEq α] : List α → List α → List α
  | seen, [] => seen
  | seen, v :: rest =>
    if v ∈ seen then accSeen seen rest else accSeen (v :: seen) rest

theorem dedupGo_sublist {α : Type} [DecidableEq α] :
    ∀ (l seen : List α), (dedupGo seen l).Sublist l := by
  intro l
  induction l with
  | nil => intro seen; simp [dedupGo]
  | cons v rest ih =>
    intro seen
    by_cases h : v ∈ seen
    · simpa [dedupGo, h] using List.Sublist.cons v (ih seen)
    · simpa [dedupGo, h] using List.Sublist.cons₂ v (ih (v :: seen))

theorem dedupGo_not_mem_seen {α : Type} [DecidableEq α] :
    ∀ (l seen : List α) (a : α), a ∈ dedupGo seen l → a ∉ seen := by
  intro l
  induction l with
  | nil => intro seen a h; simp [dedupGo] at h
  | cons v rest ih =>
    intro seen a h
    by_cases hv : v ∈ seen
    · exact ih seen a (by simpa [dedupGo, hv] using h)
    · rw [dedupGo, if_neg hv] at h
      rcases List.mem_cons.mp h with rfl | h
      · exact hv
      · intro ha
        exact ih (v :: seen) a h (List.mem_cons_of_mem v ha)

theorem dedupGo_nodup {α : Type} [DecidableEq α] :
    ∀ (l seen : List α), (dedupGo seen l).Nodup := by
  intro l
  induction l with
  | nil => intro seen; simp [dedupGo]
  | cons v rest ih =>
    intro seen
    by_cases hv : v ∈ seen
    · simpa [dedupGo, hv] using ih seen
    · rw [dedupGo, if_neg hv]
      refine List.nodup_cons.mpr ⟨?_, ih (v :: seen)⟩
      intro hmem
      exact dedupGo_not_mem_seen rest (v :: seen) v hmem (List.mem_cons_self v seen)

theorem dedupGo_mem_iff {α : Type} [DecidableEq α] :
    ∀ (l seen : List α) (a : α), a ∈ dedupGo seen l ↔ (a ∈ l ∧ a ∉ seen) := by
  intro l
  induction l with
  | nil => intro seen a; simp [dedupGo]
  | cons v rest ih =>
    intro seen a
    by_cases hv : v ∈ seen
    · rw [dedupGo, if_pos hv, ih]
      constructor
      · rintro ⟨h1, h2⟩; exact ⟨List.mem_cons_of_mem v h1, h2⟩
      · rintro ⟨h1, h2⟩
        rcases List.mem_cons.mp h1 with rfl | h1
        · exact absurd hv h2
        · exact ⟨h1, h2⟩
    · rw [dedupGo, if_neg hv]
      constructor
      · intro h
        rcases List.mem_cons.mp h with rfl | h
        · exact ⟨List.mem_cons_self a rest, hv⟩
        · rcases (ih (v :: seen) a).mp h with ⟨h1, h2⟩
          exact ⟨List.mem_cons_of_mem v h1, fun ha => h2 (List.mem_cons_of_mem v ha)⟩
      · rintro ⟨h1, h2⟩
        rcases List.mem_cons.mp h1 with rfl | h1
        · exact List.mem_cons_self a _
        · by_cases hav : a = v
          · subst hav; exact List.mem_cons_self a _
          · exact List.mem_cons_of_mem v
              ((ih (v :: seen) a).mpr ⟨h1, by simp [hav, h2]⟩)

theorem dedupGo_append {α : Type} [DecidableEq α] (l2 : List α) :
    ∀ (l1 seen : List α),
      dedupGo seen (l1 ++ l2) = dedupGo seen l1 ++ dedupGo (accSeen seen l1) l2 := by
  intro l1
  induction l1 with
  | nil => intro seen; simp [dedupGo, accSeen]
  | cons v rest ih =>
    intro seen
    by_cases hv : v ∈ seen
    · simp [dedupGo, accSeen, hv, ih]
    · simp [dedupGo, accSeen, hv, ih]

theorem dedupGo_eq_self {α : Type} [DecidableEq α] :
    ∀ (l seen : List α), l.Nodup → (∀ a ∈ l, a ∉ seen) → dedupGo seen l = l := by
  intro l
  induction l with
  | nil => intro seen _ _; simp [dedupGo]
  | cons v rest ih =>
    intro seen hnd hdisj
    have hv : v ∉ seen := hdisj v (List.mem_cons_self v rest)
    rw [dedupGo, if_neg hv]
    congr 1
    refine ih (v :: seen) (List.nodup_cons.mp hnd).2 ?_
    intro a ha hmem
    rcases List.mem_cons.mp hmem with rfl | hmem
    · exact (List.nodup_cons.mp hnd).1 ha
    · exact hdisj a (List.mem_cons_of_mem v ha) hmem

theorem dedupFirstSeen_eq_self {α : Type} [DecidableEq α] (l : List α)
    (h : l.Nodup) : dedupFirstSeen l = l :=
  dedupGo_eq_self l [] h (by simp)

/-- C1: the deduplication step of `fetch_keywords` (`app.py:308-314`),
applied to the concatenation (in keyword order) of the per-keyword id
lists, yields a list with no duplicates whose order is a suborder of the
input (first-seen order): it is a duplicate-free sublist, it keeps
exactly the ids that occur in the input (before the cap), extending the
input with further keyword results never disturbs the already-produced
front, and on the spec example `[[v1, v2], [v2, v3]]` the result is
`[v1, v2, v3]`. -/
theorem dedup_order_invariant (lists : List (List String)) :
    (dedupCapped lists.flatten).Nodup ∧
    (dedupCapped lists.flatten).Sublist lists.flatten ∧
    (∀ a, a ∈ dedupFirstSeen lists.flatten ↔ a ∈ lists.flatten) ∧
    (∀ l1 l2 : List String, ∃ t,
        dedupFirstSeen (l1 ++ l2) = dedupFirstSeen l1 ++ t) ∧
    dedupCapped (List.flatten [["v1", "v2"], ["v2", "v3"]]) = ["v1", "v2", "v3"] := by
  refine ⟨?_, ?_, ?_, ?_, by decide⟩
  · exact List.Nodup.sublist (List.take_sublist _ _) (dedupGo_nodup _ [])
  · exact List.Sublist.trans (List.take_sublist _ _) (dedupGo_sublist _ [])
  · intro a
    rw [dedupFirstSeen, dedupGo_mem_iff]
    simp
  · intro l1 l2
    exact ⟨dedupGo (accSeen [] l1) l2, dedupGo_append l2 l1 []⟩

/-- C2: for an input of 600 distinct identifiers, the deduplication step
(`app.py:308-314`) returns exactly `SAFETY_MAX_IDS = 500` identifiers,
namely the first 500 of the first-seen-order list; and in general the
output is the first-seen-order list truncated to at most 500 elements
from the front. -/
theorem dedup_safety_cap {α : Type} [DecidableEq α] (l : List α)
    (h1 : l.Nodup) (h2 : l.length = 600) :
    (dedupCapped l).length = 500 ∧
    dedupCapped l = l.take 500 ∧
    (∀ l2 : List α, (dedupCapped l2).length ≤ 500 ∧
        dedupCapped l2 = (dedupFirstSeen l2).take 500) := by
  have he : dedupFirstSeen l = l := dedupFirstSeen_eq_self l h1
  refine ⟨?_, ?_, ?_⟩
  · simp [dedupCapped, SAFETY_MAX_IDS, he, List.length_take, h2]
  · simp [dedupCapped, SAFETY_MAX_IDS, he]
  · intro l2
    refine ⟨?_, rfl⟩
    simp [dedupCapped, SAFETY_MAX_IDS, List.length_take]

/-- Witness for C2 at the concrete input `List.range 600` (600 distinct
identifiers). -/
theorem dedup_safety_cap_witness :
    (dedupCapped (List.range 600)).length = 500 ∧
    dedupCapped (List.range 600) = (List.range 600).take 500 ∧
    (∀ l2 : List Nat, (dedupCapped l2).length ≤ 500 ∧
        dedupCapped l2 = (dedupFirstSeen l2).take 500) :=
  dedup_safety_cap (List.range 600) (List.nodup_range 600) (List.length_range 600)

/-!
### Channel join and secondary filters (`app.py:257-280, 370-405`)

`cached_channels_info` returns a dict from channel id to a per-channel
record; it is embedded as a function `String → Option ChannelInfo`.
Fields that the API may omit are `Option`s, exactly as the Python dict
stores `snip.get(...)`/`None` values.
-/

/-- The per-channel record built at `app.py:273-278`. -/
structure ChannelInfo where
  title : Option String
  thumbnail : Option String
  country : Option String
  subscriberCount : Option Nat
deriving DecidableEq

/-- Python `str.upper()` (`app.py:375,377`): uppercase every character.
(The country and region codes involved are ASCII, where `Char.toUpper`
agrees with Python.) -/
def pyUpper (s : String) : String :=
  ⟨s.data.map Char.toUpper⟩

/-- Python `country or ""` (`app.py:375`): `None` (and `""`) fall back
to the empty string. -/
def orEmpty : Option String → String
  | none => ""
  | some s => s

/-- `app.py:393-402` — the `keep_by_subs` predicate of the subscriber
filter.  A row's `channelId` is `Option String` (`None`/NaN or a
string); Python's falsy test `not cid` holds for `None` and `""`. -/
def keep_by_subs (channel_info_map : String → Option ChannelInfo)
    (subscriber_min : Nat) (cid : Option String) : Bool :=
  match cid with
  | none => true                    -- keep if we can't check
  | some c =>
    if c = "" then true             -- keep if we can't check
    else
      match channel_info_map c with
      | none => true                -- keep if missing info
      | some info =>
        match info.subscriberCount with
        | none => true              -- keep when subscriber count unknown
        | some subs => decide (subscriber_min ≤ subs)

/-- `app.py:375-377` — the strict-region keep predicate
`(cid in ch_country) and (ch_country.get(cid, "") == region_code.upper())`
where `ch_country[cid] = (chinfo[cid].get("country") or "").upper()`.
A row whose `channelId` is `None`/NaN is never a key of `ch_country`. -/
def strict_region_keep (chinfo : String → Option ChannelInfo)
    (region_code : String) (cid : Option String) : Bool :=
  match cid with
  | none => false
  | some c =>
    match chinfo c with
    | none => false
    | some info => pyUpper (orEmpty info.country) == pyUpper region_code

/-- A concrete joined map carrying one channel `"CH"` with a known
subscriber count of 500, for the spec's subscriber-filter examples. -/
def chMapSubs500 : String → Option ChannelInfo := fun c =>
  if c = "CH" then some ⟨none, none, none, some 500⟩ else none

/-- A concrete joined map carrying one channel `"CH"` whose subscriber
count is unknown (`None`). -/
def chMapSubsNone : String → Option ChannelInfo := fun c =>
  if c = "CH" then some ⟨none, none, none, none⟩ else none

/-- C3: the subscriber filter (`app.py:391-403`) drops a record exactly
when its channel id is a non-empty key of the joined map and that
channel's subscriber count is known and below the threshold; in every
other situation (missing id, unjoined channel, unknown count) the record
is kept (fail-open).  On the spec's examples: a channel with 500
subscribers is dropped at threshold 1000 and kept at threshold 100, and
a channel with unknown subscriber count is kept at any threshold. -/
theorem keep_by_subs_spec (m : String → Option ChannelInfo)
    (t : Nat) (cid : Option String) :
    (keep_by_subs m t cid = false ↔
      ∃ c info subs, cid = some c ∧ c ≠ "" ∧ m c = some info ∧
        info.subscriberCount = some subs ∧ subs < t) ∧
    keep_by_subs chMapSubs500 1000 (some "CH") = false ∧
    keep_by_subs chMapSubs500 100 (some "CH") = true ∧
    (∀ t2 : Nat, keep_by_subs chMapSubsNone t2 (some "CH") = true) := by
  refine ⟨?_, by decide, by decide, ?_⟩
  · constructor
    · intro h
      match cid with
      | none => simp [keep_by_subs] at h
      | some c =>
        by_cases hc : c = ""
        · simp [keep_by_subs, hc] at h
        · match hm : m c with
          | none => simp [keep_by_subs, hc, hm] at h
          | some info =>
            match hs : info.subscriberCount with
            | none => simp [keep_by_subs, hc, hm, hs] at h
            | some subs =>
              refine ⟨c, info, subs, rfl, hc, hm, hs, ?_⟩
              simp [keep_by_subs, hc, hm, hs] at h
              omega
    · rintro ⟨c, info, subs, rfl, hc, hm, hs, hlt⟩
      simp [keep_by_subs, hc, hm, hs]
      omega
  · intro t2
    simp [keep_by_subs, chMapSubsNone]

theorem pyUpper_eq_empty_iff (s : String) : pyUpper s = "" ↔ s = "" := by
  constructor
  · intro h
    have h2 : s.data.map Char.toUpper = [] := congrArg String.data h
    have h3 : s.data = [] := List.map_eq_nil_iff.mp h2
    exact String.ext h3
  · intro h
    rw [h]
    rfl

/-- A concrete joined map carrying one channel `"CH"` whose country is
the lower-case code `"us"`. -/
def chMapUS : String → Option ChannelInfo := fun c =>
  if c = "CH" then some ⟨none, none, some "us", some 10⟩ else none

/-- C4: with a non-empty selected region code, the strict region filter
(`app.py:370-379`) keeps a record exactly when its channel id is present
in the joined map and that channel's country is known, non-blank, and
equal to the region code case-insensitively; so a record whose channel
is absent from the map, or whose country is unknown (`None`) or blank,
is dropped (fail-closed). -/
theorem strict_region_filter_spec (chinfo : String → Option ChannelInfo)
    (region_code : String) (cid : Option String) (hr : region_code ≠ "") :
    strict_region_keep chinfo region_code cid = true ↔
      ∃ c info ctry, cid = some c ∧ chinfo c = some info ∧
        info.country = some ctry ∧ ctry ≠ "" ∧
        pyUpper ctry = pyUpper region_code := by
  have hru : pyUpper region_code ≠ "" := by
    intro h
    exact hr ((pyUpper_eq_empty_iff region_code).mp h)
  constructor
  · intro h
    match cid with
    | none => simp [strict_region_keep] at h
    | some c =>
      match hm : chinfo c with
      | none => simp [strict_region_keep, hm] at h
      | some info =>
        rw [strict_region_keep, hm] at h
        have heq : pyUpper (orEmpty info.country) = pyUpper region_code :=
          by simpa using h
        match hc : info.country with
        | none =>
          rw [hc] at heq
          exact absurd heq.symm hru
        | some ctry =>
          rw [hc] at heq
          refine ⟨c, info, ctry, rfl, hm, hc, ?_, heq⟩
          intro hblank
          rw [hblank] at heq
          exact hru heq.symm
  · rintro ⟨c, info, ctry, rfl, hm, hc, _, heq⟩
    simp [strict_region_keep, hm, orEmpty, hc, heq]

/-- Witness for C4 at a concrete joined map: channel `"CH"` with
country `"us"` is kept for region `"US"` (case-insensitive match). -/
theorem strict_region_filter_spec_witness :
    strict_region_keep chMapUS "US" (some "CH") = true :=
  (strict_region_filter_spec chMapUS "US" (some "CH") (by decide)).mpr
    ⟨"CH", ⟨none, none, some "us", some 10⟩, "us", rfl, by decide, rfl,
      by decide, by decide⟩

/-!
### Views-per-day velocity (`app.py:356-367`)

```python
days_since.append(max(1, d.days))        # line 363
df["views_per_day"] = df.apply(lambda r: r["views"] / r["days_since"]
                               if r["days_since"] > 0 else float(r["views"]), axis=1)
```
`d.days` is the floor of the elapsed time in days (an `Int`, negative
for future timestamps); Python float division is embedded as exact
division on `Rat`.
-/

/-- `app.py:363` — `max(1, d.days)`, the clamped day count. -/
def days_since_of (d : Int) : Int := max 1 d

/-- `app.py:367` — the views-per-day lambda. -/
def views_per_day (views : Nat) (ds : Int) : Rat :=
  if 0 < ds then (views : Rat) / (ds : Rat) else (views : Rat)

/-- C7: for any view count and any non-negative floored day count, the
derived views-per-day value (`app.py:356-367`) equals
`views / max(1, d)`, the denominator is at least 1 (so no division by
zero even for a same-day publish), and the value is non-negative and
finite. -/
theorem views_per_day_spec (views : Nat) (d : Int) (h : 0 ≤ d) :
    views_per_day views (days_since_of d) = (views : Rat) / ((max 1 d : Int) : Rat) ∧
    0 < days_since_of d ∧
    0 ≤ views_per_day views (days_since_of d) := by
  have hpos : 0 < days_since_of d := lt_of_lt_of_le one_pos (le_max_left 1 d)
  have heq : views_per_day views (days_since_of d)
      = (views : Rat) / ((max 1 d : Int) : Rat) := by
    rw [views_per_day, if_pos hpos]
    rfl
  refine ⟨heq, hpos, ?_⟩
  rw [heq]
  apply div_nonneg
  · exact Nat.cast_nonneg views
  · exact_mod_cast le_of_lt hpos

/-- Witness for C7 at a same-day publish (`d = 0`) with 7 views. -/
theorem views_per_day_spec_witness :
    views_per_day 7 (days_since_of 0) = (7 : Rat) / ((max 1 0 : Int) : Rat) ∧
    0 < days_since_of 0 ∧
    0 ≤ views_per_day 7 (days_since_of 0) :=
  views_per_day_spec 7 0 (by decide)

/-!
### Keyword fan-out (`fetch_keywords`, `app.py:299-307`)

```python
ordered_ids = []
for kw in keywords:
    try:
        ids = cached_search_ids(kw, published_after, per_kw_max, region, api_key)
        ordered_ids.extend(ids)
    except Exception as e:
        st.error(f"Search error for '{kw}': {e}")
```
`cached_search_ids` is an external HTTP call; it is embedded as an
oracle `search : String → Except String (List String)` from keyword to
either an ordered id list or an exception message.  The fan-out returns
the collected `ordered_ids` together with the reported error messages.
-/

/-- The error text of `app.py:307`. -/
def searchErrorMsg (kw e : String) : String :=
  "Search error for '" ++ kw ++ "': " ++ e

/-- `app.py:301-307` — the fan-out loop: collected ids in keyword
order, and the per-keyword error reports. -/
def fetch_keywords_fanout (search : String → Except String (List String)) :
    List String → List String × List String
  | [] => ([], [])
  | kw :: rest =>
    match search kw with
    | Except.ok ids =>
      let r := fetch_keywords_fanout search rest
      (ids ++ r.1, r.2)
    | Except.error e =>
      let r := fetch_keywords_fanout search rest
      (r.1, searchErrorMsg kw e :: r.2)

/-- `app.py:299-314` — ids of `fetch_keywords` after fan-out,
deduplication and cap (the subsequent metadata fetch is external). -/
def fetch_keywords_unique_ids (search : String → Except String (List String))
    (keywords : List String) : List String :=
  dedupCapped (fetch_keywords_fanout search keywords).1

/-- C8: a failing keyword anywhere in the fan-out (`app.py:302-307`)
does not abort the remaining keywords: the run over
`pre ++ [kw] ++ post` collects exactly the ids of `pre` followed by the
ids of `post` (the failing keyword contributes zero identifiers), and
the failure is reported as a per-keyword error message between the
reports of `pre` and those of `post`. -/
theorem fetch_keywords_fanout_error_recovery
    (search : String → Except String (List String))
    (pre post : List String) (kw e : String)
    (hfail : search kw = Except.error e) :
    (fetch_keywords_fanout search (pre ++ kw :: post)).1 =
      (fetch_keywords_fanout search pre).1 ++ (fetch_keywords_fanout search post).1 ∧
    (fetch_keywords_fanout search (pre ++ kw :: post)).2 =
      (fetch_keywords_fanout search pre).2 ++
        searchErrorMsg kw e :: (fetch_keywords_fanout search post).2 := by
  induction pre with
  | nil =>
    simp [fetch_keywords_fanout, hfail]
  | cons k rest ih =>
    match hk : search k with
    | Except.ok ids =>
      simp [fetch_keywords_fanout, hk, ih.1, ih.2]
    | Except.error e2 =>
      simp [fetch_keywords_fanout, hk, ih.1, ih.2]

/-- A concrete search oracle that fails on the keyword `"bad"` and
returns one id for every other keyword. -/
def searchEx : String → Except String (List String) := fun kw =>
  if kw = "bad" then Except.error "boom" else Except.ok [kw ++ "-id"]

/-- Witness for C8 at the concrete run `["a", "bad", "b"]`. -/
theorem fetch_keywords_fanout_error_recovery_witness :
    (fetch_keywords_fanout searchEx (["a"] ++ "bad" :: ["b"])).1 =
      (fetch_keywords_fanout searchEx ["a"]).1 ++ (fetch_keywords_fanout searchEx ["b"]).1 ∧
    (fetch_keywords_fanout searchEx (["a"] ++ "bad" :: ["b"])).2 =
      (fetch_keywords_fanout searchEx ["a"]).2 ++
        searchErrorMsg "bad" "boom" :: (fetch_keywords_fanout searchEx ["b"]).2 :=
  fetch_keywords_fanout_error_recovery searchEx ["a"] ["b"] "bad" "boom" rfl

/-!
### Count formatting (`format_count`, `app.py:75-86`)

```python
if n >= 1_000_000_000:
    return f"{n/1_000_000_000:.1f}B".rstrip('0').rstrip('.')
if n >= 1_000_000:
    return f"{n/1_000_000:.1f}M".rstrip('0').rstrip('.')
if n >= 1_000:
    return f"{n/1_000:.1f}k".rstrip('0').rstrip('.')
return str(n)
```
`f"{x:.1f}"` renders the float `n/divisor` with one decimal digit,
rounding half-to-even; it is embedded as exact half-even rounding of
the rational `n/divisor` to tenths (the two agree at every input below
whose quotient is exactly representable).  Note that in the source the
`rstrip` calls run on the string *after* the `B`/`M`/`k` suffix has
been appended, exactly as embedded here.
-/

/-- Python `str.rstrip(c)`: remove every trailing occurrence of `c`. -/
def rstripChar (c : Char) (s : String) : String :=
  ⟨(s.data.reverse.dropWhile (fun x => x = c)).reverse⟩

/-- Round `a / b` to the nearest integer, ties to even (the rounding of
`float.__format__` with `.1f` applied to `(10*n)/d`). -/
def roundHalfEven (a b : Nat) : Nat :=
  let q := a / b
  let r := a % b
  if 2 * r < b then q
  else if b < 2 * r then q + 1
  else if q % 2 = 0 then q else q + 1

/-- `f"{n/d:.1f}"`: the quotient rendered with exactly one decimal
digit. -/
def fmt1 (n d : Nat) : String :=
  let t := roundHalfEven (10 * n) d
  toString (t / 10) ++ "." ++ toString (t % 10)

/-- `app.py:75-86` — `format_count` on an integer input (the `int(n)`
coercion succeeds and the `None` fallback is not reached). -/
def format_count (n : Nat) : String :=
  if 1000000000 ≤ n then rstripChar '.' (rstripChar '0' (fmt1 n 1000000000 ++ "B"))
  else if 1000000 ≤ n then rstripChar '.' (rstripChar '0' (fmt1 n 1000000 ++ "M"))
  else if 1000 ≤ n then rstripChar '.' (rstripChar '0' (fmt1 n 1000 ++ "k"))
  else toString n

/-- C5 (divergence): `format_count` at the claim's own example inputs.
Because `rstrip('0').rstrip('.')` runs after the suffix letter has been
appended, the trailing `".0"` is never stripped: `1000` renders as
`"1.0k"` (the claim and spec say `"1k"`) and `2000000000` renders as
`"2.0B"` (the claim and spec say `"2B"`); `999` and `1500000` agree
with the claim. -/
theorem format_count_values :
    format_count 999 = "999" ∧
    format_count 1000 = "1.0k" ∧
    format_count 1500000 = "1.5M" ∧
    format_count 2000000000 = "2.0B" := by
  refine ⟨by decide, by decide, by decide, by decide⟩

/-!
### ISO-8601 duration parsing (`parse_iso8601_duration`, `app.py:111-130`)

```python
if not duration_str:
    return ""
s = duration_str.upper().replace("PT", "")
hours = mins = secs = 0
num = ""
for ch in s:
    if ch.isdigit():
        num += ch
    else:
        if ch == "H":   hours = int(num) if num else 0
        elif ch == "M": mins = int(num) if num else 0
        elif ch == "S": secs = int(num) if num else 0
        num = ""
if hours > 0:
    return f"{hours}:{mins:02d}:{secs:02d}"
return f"{mins}:{secs:02d}"
```
Python `int(...)` may raise, so the embedding is into `Option`: a
`none` result stands for an uncaught exception.  Crucially, the digit
test `ch.isdigit()` and the acceptance test of `int(...)` are two
different predicates in Python: `isdigit` is true for every character
of Unicode `Numeric_Type=Decimal` or `Numeric_Type=Digit`, while
`int` accepts only the decimal (`Numeric_Type=Decimal`, category Nd)
digits.  A character in the gap — such as the superscript two `'²'`
(U+00B2) — is accumulated into `num` by the loop and then makes
`int(num)` raise `ValueError`.  The two predicates are therefore
embedded separately below.
-/

/-- The decimal-digit value of a character, as accepted by Python
`int(...)` (Unicode `Numeric_Type=Decimal`, category Nd).  Represented
exactly on the ASCII digits and on the principal BMP decimal ranges
listed; decimal ranges added by later Unicode versions are treated as
non-decimal — no theorem below evaluates a character outside the ASCII
range and the superscript digits. -/
def pyDecDigitVal? (c : Char) : Option Nat :=
  let n := c.toNat
  if 0x30 ≤ n ∧ n ≤ 0x39 then some (n - 0x30)          -- ASCII
  else if 0x660 ≤ n ∧ n ≤ 0x669 then some (n - 0x660)  -- Arabic-Indic
  else if 0x6F0 ≤ n ∧ n ≤ 0x6F9 then some (n - 0x6F0)  -- Extended Arabic-Indic
  else if 0x966 ≤ n ∧ n ≤ 0x96F then some (n - 0x966)  -- Devanagari
  else if 0x9E6 ≤ n ∧ n ≤ 0x9EF then some (n - 0x9E6)  -- Bengali
  else if 0xA66 ≤ n ∧ n ≤ 0xA6F then some (n - 0xA66)  -- Gurmukhi
  else if 0xAE6 ≤ n ∧ n ≤ 0xAEF then some (n - 0xAE6)  -- Gujarati
  else if 0xB66 ≤ n ∧ n ≤ 0xB6F then some (n - 0xB66)  -- Oriya
  else if 0xBE6 ≤ n ∧ n ≤ 0xBEF then some (n - 0xBE6)  -- Tamil
  else if 0xC66 ≤ n ∧ n ≤ 0xC6F then some (n - 0xC66)  -- Telugu
  else if 0xCE6 ≤ n ∧ n ≤ 0xCEF then some (n - 0xCE6)  -- Kannada
  else if 0xD66 ≤ n ∧ n ≤ 0xD6F then some (n - 0xD66)  -- Malayalam
  else if 0xE50 ≤ n ∧ n ≤ 0xE59 then some (n - 0xE50)  -- Thai
  else if 0xED0 ≤ n ∧ n ≤ 0xED9 then some (n - 0xED0)  -- Lao
  else if 0xF20 ≤ n ∧ n ≤ 0xF29 then some (n - 0xF20)  -- Tibetan
  else if 0x1040 ≤ n ∧ n ≤ 0x1049 then some (n - 0x1040)  -- Myanmar
  else if 0x17E0 ≤ n ∧ n ≤ 0x17E9 then some (n - 0x17E0)  -- Khmer
  else if 0x1810 ≤ n ∧ n ≤ 0x1819 then some (n - 0x1810)  -- Mongolian
  else if 0xFF10 ≤ n ∧ n ≤ 0xFF19 then some (n - 0xFF10)  -- Fullwidth
  else none

/-- The Unicode `Numeric_Type=Digit` characters that are *not*
decimal: accepted by Python `str.isdigit` but rejected by `int(...)`.
Covers the Latin-1 superscripts `¹²³`, the remaining superscripts
`⁰⁴`–`⁹`, the subscripts `₀`–`₉`, and the circled digits `⓪①`–`⑨`;
all of them sit above the ASCII range. -/
def pyDigitNonDecimal (c : Char) : Bool :=
  let n := c.toNat
  decide (n = 0xB2 ∨ n = 0xB3 ∨ n = 0xB9 ∨ n = 0x2070 ∨
    (0x2074 ≤ n ∧ n ≤ 0x2079) ∨ (0x2080 ≤ n ∧ n ≤ 0x2089) ∨
    (0x2460 ≤ n ∧ n ≤ 0x2468) ∨ n = 0x24EA)

/-- Python `ch.isdigit()` (`app.py:118`): true for `Numeric_Type =
Decimal` and `Numeric_Type=Digit` characters — strictly wider than
what `int(...)` accepts. -/
def pyIsDigit (c : Char) : Bool :=
  (pyDecDigitVal? c).isSome || pyDigitNonDecimal c

/-- Python `int(...)` on a non-empty character run: succeeds exactly
when every character is a decimal digit, with the usual base-10
value. -/
def digitsValCore : List Char → Nat → Option Nat
  | [], acc => some acc
  | c :: cs, acc =>
    match pyDecDigitVal? c with
    | some d => digitsValCore cs (10 * acc + d)
    | none => none

/-- `int(num) if num else 0` (`app.py:122,124,126`): the guard keeps
`int` away from the empty string. -/
def numVal? (num : List Char) : Option Nat :=
  if num.isEmpty then some 0 else digitsValCore num 0

/-- Python `s.replace("PT", "")`: remove every (non-overlapping,
left-to-right) occurrence of `"PT"`. -/
def replacePT : List Char → List Char
  | 'P' :: 'T' :: rest => replacePT rest
  | c :: rest => c :: replacePT rest
  | [] => []

/-- The accumulator loop of `app.py:117-127` over the remaining
characters, carrying `hours`, `mins`, `secs` and the pending digit run
`num`. -/
def durLoop : List Char → Nat → Nat → Nat → List Char → Option (Nat × Nat × Nat)
  | [], hours, mins, secs, _ => some (hours, mins, secs)
  | c :: rest, hours, mins, secs, num =>
    if pyIsDigit c then durLoop rest hours mins secs (num ++ [c])
    else if c = 'H' then (numVal? num).bind (fun v => durLoop rest v mins secs [])
    else if c = 'M' then (numVal? num).bind (fun v => durLoop rest hours v secs [])
    else if c = 'S' then (numVal? num).bind (fun v => durLoop rest hours mins v [])
    else durLoop rest hours mins secs []

/-- Python `f"{n:02d}"`: zero-pad to two digits. -/
def pad2 (n : Nat) : String :=
  if n < 10 then "0" ++ toString n else toString n

/-- `app.py:111-130` — `parse_iso8601_duration`.  `none` would mean an
uncaught exception from `int(...)`. -/
def parse_iso8601_duration (duration_str : String) : Option String :=
  if duration_str.isEmpty then some ""
  else
    (durLoop (replacePT (duration_str.data.map Char.toUpper)) 0 0 0 []).map
      (fun t =>
        if 0 < t.1 then toString t.1 ++ ":" ++ pad2 t.2.1 ++ ":" ++ pad2 t.2.2
        else toString t.2.1 ++ ":" ++ pad2 t.2.2)

/-- C6: the duration parser maps `"PT1H2M3S"` to `"1:02:03"` (H:MM:SS
since hours > 0), `"PT18M57S"` to `"18:57"` (M:SS), and the empty
string to the empty string — in each case returning normally
(`some`, i.e. no exception). -/
theorem parse_iso8601_duration_examples :
    parse_iso8601_duration "PT1H2M3S" = some "1:02:03" ∧
    parse_iso8601_duration "PT18M57S" = some "18:57" ∧
    parse_iso8601_duration "" = some "" := by
  refine ⟨by decide, by decide, by decide⟩

theorem digitsValCore_isSome :
    ∀ (cs : List Char) (acc : Nat), (∀ c ∈ cs, (pyDecDigitVal? c).isSome = true) →
      (digitsValCore cs acc).isSome = true := by
  intro cs
  induction cs with
  | nil => intro acc _; simp [digitsValCore]
  | cons c rest ih =>
    intro acc h
    obtain ⟨d, hd⟩ := Option.isSome_iff_exists.mp (h c (List.mem_cons_self c rest))
    simp only [digitsValCore, hd]
    exact ih _ (fun x hx => h x (List.mem_cons_of_mem c hx))

theorem numVal?_isSome (num : List Char)
    (h : ∀ c ∈ num, (pyDecDigitVal? c).isSome = true) :
    (numVal? num).isSome = true := by
  rw [numVal?]
  by_cases he : num.isEmpty
  · simp [he]
  · rw [if_neg he]
    exact digitsValCore_isSome num 0 h

theorem durLoop_isSome :
    ∀ (cs : List Char) (hours mins secs : Nat) (num : List Char),
      (∀ c ∈ cs, pyIsDigit c = true → (pyDecDigitVal? c).isSome = true) →
      (∀ c ∈ num, (pyDecDigitVal? c).isSome = true) →
      (durLoop cs hours mins secs num).isSome = true := by
  intro cs
  induction cs with
  | nil => intro hours mins secs num _ _; simp [durLoop]
  | cons c rest ih =>
    intro hours mins secs num hcs hnum
    have hrest : ∀ x ∈ rest, pyIsDigit x = true → (pyDecDigitVal? x).isSome = true :=
      fun x hx => hcs x (List.mem_cons_of_mem c hx)
    rw [durLoop]
    by_cases hd : pyIsDigit c
    · rw [if_pos hd]
      refine ih hours mins secs (num ++ [c]) hrest ?_
      intro x hx
      rcases List.mem_append.mp hx with hx | hx
      · exact hnum x hx
      · rw [List.mem_singleton.mp hx]
        exact hcs c (List.mem_cons_self c rest) hd
    · rw [if_neg hd]
      have hs : (numVal? num).isSome = true := numVal?_isSome num hnum
      obtain ⟨v, hv⟩ := Option.isSome_iff_exists.mp hs
      by_cases hH : c = 'H'
      · simp only [if_pos hH, hv, Option.bind_some]
        exact ih v mins secs [] hrest (by simp)
      · rw [if_neg hH]
        by_cases hM : c = 'M'
        · simp only [if_pos hM, hv, Option.bind_some]
          exact ih hours v secs [] hrest (by simp)
        · rw [if_neg hM]
          by_cases hS : c = 'S'
          · simp only [if_pos hS, hv, Option.bind_some]
            exact ih hours mins v [] hrest (by simp)
          · rw [if_neg hS]
            exact ih hours mins secs [] hrest (by simp)

theorem mem_of_mem_replacePT :
    ∀ (l : List Char) (c : Char), c ∈ replacePT l → c ∈ l := by
  intro l
  induction l using replacePT.induct with
  | case1 rest ih =>
    intro c hc
    rw [replacePT] at hc
    exact List.mem_cons_of_mem _ (List.mem_cons_of_mem _ (ih c hc))
  | case2 x rest hne ih =>
    intro c hc
    rw [replacePT] at hc
    · rcases List.mem_cons.mp hc with rfl | hc
      · exact List.mem_cons_self _ _
      · exact List.mem_cons_of_mem _ (ih c hc)
    · exact hne
  | case3 =>
    intro c hc
    simp [replacePT] at hc

theorem toNat_ofNat_valid (m : Nat) (h : m.isValidChar) :
    (Char.ofNat m).toNat = m := by
  rw [Char.ofNat, dif_pos h]
  rfl

theorem toUpper_ascii (c : Char) (h : c.toNat < 128) :
    (Char.toUpper c).toNat < 128 := by
  rw [Char.toUpper]
  by_cases hc : c.toNat ≥ 97 ∧ c.toNat ≤ 122
  · rw [if_pos hc]
    have hv : (c.toNat - 32).isValidChar := Or.inl (by omega)
    rw [toNat_ofNat_valid _ hv]
    omega
  · rw [if_neg hc]
    exact h

theorem ascii_pyIsDigit_decimal (c : Char) (h : c.toNat < 128)
    (hd : pyIsDigit c = true) : (pyDecDigitVal? c).isSome = true := by
  rw [pyIsDigit, Bool.or_eq_true] at hd
  rcases hd with h1 | h2
  · exact h1
  · exfalso
    simp only [pyDigitNonDecimal, decide_eq_true_eq] at h2
    omega

/-- C10 (counterexample): the parser does *not* return normally on
every input string.  Python's per-character test `ch.isdigit()` accepts
the superscript two `'²'` (`Numeric_Type=Digit`) which `int(...)`
rejects, so on `"PT²S"` the loop accumulates `num = "²"` and
`secs = int(num)` at `app.py:126` raises an uncaught `ValueError`
(embedded as `none`). -/
theorem parse_iso8601_duration_raises_on_superscript :
    parse_iso8601_duration "PT²S" = none := by
  decide

/-- C10 (amended): on every input string of ASCII characters — where
the digit test and the acceptance of `int(...)` coincide — the duration
parser returns normally and never raises; digit runs are accumulated
and assigned verbatim at each `H`/`M`/`S` letter with no carrying, so
the overflowing `"PT90S"` renders as `"0:90"`, not `"1:30"`. -/
theorem parse_iso8601_duration_ascii_total (s : String)
    (h : ∀ c ∈ s.data, c.toNat < 128) :
    (parse_iso8601_duration s).isSome = true ∧
    parse_iso8601_duration "PT90S" = some "0:90" := by
  refine ⟨?_, by decide⟩
  rw [parse_iso8601_duration]
  by_cases he : s.isEmpty
  · simp [he]
  · rw [if_neg he]
    have hcs : ∀ c ∈ replacePT (s.data.map Char.toUpper),
        pyIsDigit c = true → (pyDecDigitVal? c).isSome = true := by
      intro c hc hd
      have hc2 : c ∈ s.data.map Char.toUpper := mem_of_mem_replacePT _ c hc
      obtain ⟨d, hd2, rfl⟩ := List.mem_map.mp hc2
      exact ascii_pyIsDigit_decimal _ (toUpper_ascii d (h d hd2)) hd
    have hs := durLoop_isSome (replacePT (s.data.map Char.toUpper)) 0 0 0 [] hcs
      (by simp)
    obtain ⟨v, hv⟩ := Option.isSome_iff_exists.mp hs
    simp [hv]

/-- Witness for the amended C10 at the concrete ASCII input
`"PT90S"`. -/
theorem parse_iso8601_duration_ascii_total_witness :
    (parse_iso8601_duration "PT90S").isSome = true ∧
    parse_iso8601_duration "PT90S" = some "0:90" :=
  parse_iso8601_duration_ascii_total "PT90S" (by decide)

/-!
### Record construction in `cached_video_stats` (`app.py:241-253`)

```python
"views": int(stats.get("viewCount", 0)) if stats.get("viewCount") else 0,
"likes": int(stats.get("likeCount", 0)) if stats.get("likeCount") else None,
```
The statistics fields arrive from the JSON response as decimal strings
when present; a field is embedded as `Option String` (`none` = absent
from the dict).  Python truthiness of a string value holds exactly for
non-empty strings, and `int(...)` on a string may raise `ValueError`;
the construction is therefore embedded as `Except`, an `error` standing
for an uncaught exception that fails the whole batch.
-/

/-- Python `int(s)` on a string: optional sign followed by at least one
decimal digit (surrounding whitespace, underscores and non-decimal
bases are not exercised by any claim). -/
def pyInt? (s : String) : Option Int :=
  match s.data with
  | '-' :: rest => (if rest.isEmpty then none else digitsValCore rest 0).map
      (fun n => -(n : Int))
  | '+' :: rest => (if rest.isEmpty then none else digitsValCore rest 0).map
      (fun n => (n : Int))
  | l => (if l.isEmpty then none else digitsValCore l 0).map (fun n => (n : Int))

/-- `app.py:247` — the `"views"` field: `0` when the raw field is
falsy (absent or empty), otherwise `int(...)`. -/
def views_of (viewCount : Option String) : Except String Int :=
  match viewCount with
  | none => Except.ok 0
  | some s =>
    if s = "" then Except.ok 0
    else
      match pyInt? s with
      | some n => Except.ok n
      | none => Except.error s

/-- `app.py:248` — the `"likes"` field: `None` when the raw field is
falsy (absent or empty), otherwise `int(...)`. -/
def likes_of (likeCount : Option String) : Except String (Option Int) :=
  match likeCount with
  | none => Except.ok none
  | some s =>
    if s = "" then Except.ok none
    else
      match pyInt? s with
      | some n => Except.ok (some n)
      | none => Except.error s

/-- `app.py:241-253` — the numeric part of one result record: both
fields, or the first uncaught exception. -/
def build_stats (viewCount likeCount : Option String) :
    Except String (Int × Option Int) :=
  match views_of viewCount with
  | Except.error e => Except.error e
  | Except.ok v =>
    match likes_of likeCount with
    | Except.error e => Except.error e
    | Except.ok l => Except.ok (v, l)

/-- C9 (counterexample): a present but malformed `viewCount` of
`"abc"` is truthy, so `int("abc")` runs and raises — the record
construction does crash, contradicting the claim that a malformed
numeric field never crashes it. -/
theorem build_stats_malformed_crashes :
    build_stats (some "abc") none = Except.error "abc" := by
  rfl

/-- C9 (amended): a *missing* numeric field (absent from the response,
or present as the empty string, both falsy in Python) never crashes the
record construction: the view count defaults to 0 and the like count to
the unknown sentinel `None`. -/
theorem build_stats_missing_defaults (viewCount likeCount : Option String)
    (hv : viewCount = none ∨ viewCount = some "")
    (hl : likeCount = none ∨ likeCount = some "") :
    build_stats viewCount likeCount = Except.ok (0, none) := by
  rcases hv with rfl | rfl <;> rcases hl with rfl | rfl <;> rfl

/-- Witness for the amended C9 at wholly absent fields. -/
theorem build_stats_missing_defaults_witness :
    build_stats none none = Except.ok (0, none) :=
  build_stats_missing_defaults none none (Or.inl rfl) (Or.inl rfl)

end YTB
